import Mathlib

/-!
Shallow embedding of the CompetitivePulse dashboard-aggregation core and
bulk-CSV ingestion pipeline.

The aggregation queries are taken from `DatabaseStorage` (getDashboardMetrics,
getRecentPricingTrends, deleteCompetitor, createCompetitor, createPricingData);
the ingestion pipeline is taken from the `POST /api/bulk-upload` route handler.
SQL `numeric` values are modelled as rationals, timestamps as integers
(seconds), `DATE()` truncation as floor division by 86400.  JavaScript string
operations (`split`, `trim`, `replace`, `toLowerCase`, `parseInt`,
`parseFloat`) are modelled character-by-character on `List Char` so that all
definitions are executable and kernel-reducible.
-/

namespace CompetitivePulse

/-! ## JavaScript-style string primitives -/

/-- Model of the JS `String.prototype.split` with a one-character separator:
empty pieces are preserved and splitting the empty string yields `[[]]`. -/
def splitOnChar (sep : Char) : List Char → List (List Char)
  | [] => [[]]
  | c :: r =>
    if c = sep then [] :: splitOnChar sep r
    else
      match splitOnChar sep r with
      | [] => [[c]]
      | g :: gs => (c :: g) :: gs

/-- JS `s.split(sep)` for a single-character separator. -/
def jsSplit (sep : Char) (s : String) : List String :=
  (splitOnChar sep s.data).map String.mk

/-- Leading and trailing whitespace removal on a character list (JS `trim`). -/
def trimChars (cs : List Char) : List Char :=
  ((cs.dropWhile Char.isWhitespace).reverse.dropWhile Char.isWhitespace).reverse

/-- JS `s.trim()`. -/
def jsTrim (s : String) : String := ⟨trimChars s.data⟩

/-- Removal of every quote character, modelling the global-regex replacement
of a double quote by the empty string used in the upload handler. -/
def removeQuotes : List Char → List Char
  | [] => []
  | c :: r => if c = '"' then removeQuotes r else c :: removeQuotes r

/-- Canonicalisation applied to each header field and each data value in the
upload handler: trim, then remove every quote character. -/
def canonField (s : String) : String := ⟨removeQuotes (trimChars s.data)⟩

/-- JS `s.toLowerCase()` restricted to its ASCII behaviour. -/
def lowerStr (s : String) : String := ⟨s.data.map Char.toLower⟩

/-- Replace every maximal run of whitespace by a single underscore, modelling
the global-regex replacement of whitespace runs used to build header keys.
The flag records whether the previous character was whitespace. -/
def collapseWsAux : Bool → List Char → List Char
  | _, [] => []
  | inWs, c :: r =>
    if c.isWhitespace then
      if inWs then collapseWsAux true r else '_' :: collapseWsAux true r
    else c :: collapseWsAux false r

/-- Whitespace-run collapsing starting outside a run. -/
def collapseWs (cs : List Char) : List Char := collapseWsAux false cs

/-- Canonical field key built from an (already trimmed and unquoted) header:
lower-case, then replace whitespace runs by underscores. -/
def headerKey (h : String) : String := ⟨collapseWs (lowerStr h).data⟩

/-! ## JavaScript numeric parsing -/

/-- Value of a list of decimal digit characters. -/
def digitsVal (ds : List Char) : ℕ :=
  ds.foldl (fun acc c => acc * 10 + (c.toNat - '0'.toNat)) 0

/-- Value of a hexadecimal digit character, if it is one. -/
def hexDigitVal (c : Char) : Option ℕ :=
  if c.isDigit then some (c.toNat - '0'.toNat)
  else if 'a' ≤ c ∧ c ≤ 'f' then some (c.toNat - 'a'.toNat + 10)
  else if 'A' ≤ c ∧ c ≤ 'F' then some (c.toNat - 'A'.toNat + 10)
  else none

/-- Value of a list of hexadecimal digit characters. -/
def hexVal (ds : List Char) : ℕ :=
  ds.foldl (fun acc c => acc * 16 + ((hexDigitVal c).getD 0)) 0

/-- Model of JS `parseInt(s)` with no radix argument: skip leading whitespace,
optional sign, a `0x`/`0X` prefix selects base 16, otherwise a maximal run of
decimal digits; `none` models `NaN` (no digits). Trailing garbage is ignored. -/
def jsParseInt (s : String) : Option ℤ :=
  let cs := s.data.dropWhile Char.isWhitespace
  let sgn : ℤ := match cs with
    | '-' :: _ => -1
    | _ => 1
  let cs1 : List Char := match cs with
    | '-' :: r => r
    | '+' :: r => r
    | r => r
  match cs1 with
  | '0' :: x :: r =>
    if x = 'x' ∨ x = 'X' then
      let ds := r.takeWhile (fun c => (hexDigitVal c).isSome)
      if ds.isEmpty then none else some (sgn * hexVal ds)
    else
      some (sgn * digitsVal (('0' :: x :: r).takeWhile Char.isDigit))
  | cs2 =>
    let ds := cs2.takeWhile Char.isDigit
    if ds.isEmpty then none else some (sgn * digitsVal ds)

/-- Model of JS `parseFloat(s)`: skip leading whitespace, optional sign,
decimal digits with an optional fractional part and an optional exponent;
`none` models `NaN` (no digits in the mantissa). Trailing garbage is
ignored, and an `e` with no digits after it is ignored as in JS. -/
def jsParseFloat (s : String) : Option ℚ :=
  let cs := s.data.dropWhile Char.isWhitespace
  let sgn : ℚ := match cs with
    | '-' :: _ => -1
    | _ => 1
  let cs1 : List Char := match cs with
    | '-' :: r => r
    | '+' :: r => r
    | r => r
  let ip := cs1.takeWhile Char.isDigit
  let r1 := cs1.dropWhile Char.isDigit
  let fp : List Char := match r1 with
    | '.' :: r => r.takeWhile Char.isDigit
    | _ => []
  let r2 : List Char := match r1 with
    | '.' :: r => r.dropWhile Char.isDigit
    | r => r
  if ip.isEmpty && fp.isEmpty then none
  else
    let mant : ℚ := (digitsVal ip : ℚ) + (digitsVal fp : ℚ) / (10 : ℚ) ^ fp.length
    let ex : ℚ := match r2 with
      | e :: r3 =>
        if e = 'e' ∨ e = 'E' then
          let esgn : ℤ := match r3 with
            | '-' :: _ => -1
            | _ => 1
          let r4 : List Char := match r3 with
            | '-' :: r => r
            | '+' :: r => r
            | r => r
          let ed := r4.takeWhile Char.isDigit
          if ed.isEmpty then 1 else (10 : ℚ) ^ (esgn * (digitsVal ed : ℤ))
        else 1
      | [] => 1
    some (sgn * mant * ex)

/-- Resolution of the `days` query parameter in `GET
/api/dashboard/pricing-trends`: `parseInt(req.query.days) || 180`. A missing
parameter stringifies to a non-numeric value, and both `NaN` and `0` are
falsy, so they fall back to 180. -/
def daysParam (q : Option String) : ℤ :=
  match q with
  | none => 180
  | some s =>
    match jsParseInt s with
    | none => 180
    | some v => if v = 0 then 180 else v

/-! ## Data model -/

/-- A stored competitor row (timestamps and the owning-user reference are not
needed by any claim and are omitted; `numeric` columns are rationals, the
`trend_status` enum is carried as its string value). -/
structure Competitor where
  id : ℕ
  name : String
  category : String
  priceRangeMin : ℚ
  priceRangeMax : ℚ
  marketShare : ℚ
  trendStatus : String
deriving DecidableEq

/-- A stored pricing observation; `recordedAt` is a timestamp in seconds. -/
structure PricingRow where
  competitorId : ℕ
  price : ℚ
  recordedAt : ℤ
deriving DecidableEq

/-- The relational store visible to the embedded operations, together with a
clock used for `defaultNow()` timestamp columns and the next serial id. -/
structure Store where
  competitors : List Competitor
  pricing : List PricingRow
  nextId : ℕ
  now : ℤ
deriving DecidableEq

/-! ## Dashboard metrics (DatabaseStorage.getDashboardMetrics) -/

/-- SQL `AVG` over a list of numeric values: `NULL` (here `none`) on an empty
input, otherwise the mean. -/
def sqlAvg (xs : List ℚ) : Option ℚ :=
  if xs.isEmpty then none else some (xs.sum / (xs.length : ℚ))

/-- SQL `SUM` over a list of numeric values: `NULL` on an empty input. -/
def sqlSum (xs : List ℚ) : Option ℚ :=
  if xs.isEmpty then none else some xs.sum

/-- JS `Number(x) || 0` applied to a nullable numeric result. -/
def jsNumberOrZero (o : Option ℚ) : ℚ := o.getD 0

/-- JS `Number(x.toFixed(1))`: round to one decimal place (ties round up,
matching `toFixed` on the non-negative values arising here). -/
def round1 (q : ℚ) : ℚ := ((round (q * 10) : ℤ) : ℚ) / 10

/-- Midpoint of a competitor's price range, as averaged by the metrics query. -/
def midPrice (c : Competitor) : ℚ := (c.priceRangeMin + c.priceRangeMax) / 2

/-- The dashboard metrics record. -/
structure DashboardMetrics where
  totalCompetitors : ℕ
  avgPrice : ℚ
  marketShare : ℚ
  trendScore : ℚ
deriving DecidableEq

/-- Embedding of `DatabaseStorage.getDashboardMetrics`: a count, an average of
price-range midpoints, a sum of market shares (each passed through
`Number(...) || 0`), and the trend score
`max(0, min(10, Number((((g - d) / t) * 5 + 5).toFixed(1))))` with a neutral 5
when the table is empty. -/
def getDashboardMetrics (cs : List Competitor) : DashboardMetrics :=
  let g := cs.countP (fun c => c.trendStatus == "growing")
  let d := cs.countP (fun c => c.trendStatus == "declining")
  let t := cs.length
  let rawTrend : ℚ := if 0 < t then (((g : ℚ) - (d : ℚ)) / (t : ℚ)) * 5 + 5 else 5
  { totalCompetitors := cs.length,
    avgPrice := jsNumberOrZero (sqlAvg (cs.map midPrice)),
    marketShare := jsNumberOrZero (sqlSum (cs.map (fun c => c.marketShare))),
    trendScore := max 0 (min 10 (round1 rawTrend)) }

/-! ## Pricing trends (DatabaseStorage.getRecentPricingTrends) -/

/-- One point of the trend series: a calendar day and the mean price. -/
structure TrendPoint where
  date : ℤ
  avgPrice : ℚ
deriving DecidableEq

/-- SQL `DATE()` truncation of a timestamp: the calendar-day index, i.e.
floor division by the number of seconds in a day. -/
def dateOf (t : ℤ) : ℤ := Int.fdiv t 86400

/-- Embedding of `DatabaseStorage.getRecentPricingTrends`: filter observations
to those recorded on or after `now - days` days, group by calendar day, average
the prices of each group, and order ascending by day. -/
def getRecentPricingTrends (rows : List PricingRow) (now days : ℤ) : List TrendPoint :=
  let cutoff := now - days * 86400
  let recent := rows.filter (fun r => cutoff ≤ r.recordedAt)
  let dates := (recent.map (fun r => dateOf r.recordedAt)).dedup
  let sorted := List.insertionSort (· ≤ ·) dates
  sorted.map (fun dd =>
    let ps := (recent.filter (fun r => dateOf r.recordedAt = dd)).map (fun r => r.price)
    { date := dd, avgPrice := ps.sum / (ps.length : ℚ) })

/-- The prices recorded on day `dd` at or after `cutoff`. -/
def dayPrices (rows : List PricingRow) (cutoff dd : ℤ) : List ℚ :=
  (rows.filter (fun r => cutoff ≤ r.recordedAt ∧ dateOf r.recordedAt = dd)).map
    (fun r => r.price)

/-- Mean of the prices recorded on day `dd` at or after `cutoff`. -/
def dayMean (rows : List PricingRow) (cutoff dd : ℤ) : ℚ :=
  (dayPrices rows cutoff dd).sum / ((dayPrices rows cutoff dd).length : ℚ)

/-! ## Competitor deletion (DatabaseStorage.deleteCompetitor) -/

/-- First statement of `deleteCompetitor`: delete all pricing rows whose
`competitorId` equals the given id. -/
def deletePricingByCompetitor (st : Store) (cid : ℕ) : Store :=
  { st with pricing := st.pricing.filter (fun p => p.competitorId ≠ cid) }

/-- Second statement of `deleteCompetitor`: delete the competitor row itself. -/
def deleteCompetitorRow (st : Store) (cid : ℕ) : Store :=
  { st with competitors := st.competitors.filter (fun c => c.id ≠ cid) }

/-- Embedding of `DatabaseStorage.deleteCompetitor`: children first, then the
competitor. -/
def deleteCompetitor (st : Store) (cid : ℕ) : Store :=
  deleteCompetitorRow (deletePricingByCompetitor st cid) cid

/-! ## Row mapping for the bulk-upload handler -/

/-- Zip canonical header keys against row values, one entry per header, with
values missing at the end of the line mapping to the empty string
(`values[index] || ''`). -/
def buildRow : List String → List String → List (String × String)
  | [], _ => []
  | h :: hs, vs => (headerKey h, vs.headD "") :: buildRow hs (vs.drop 1)

/-- Property access `rowData[k]` on the object built by repeated assignment:
the last assignment to a key wins; `none` models `undefined`. -/
def rowLookup (m : List (String × String)) (k : String) : Option String :=
  (m.reverse.find? (fun p => p.1 == k)).map (fun p => p.2)

/-- JS `a || b` where `a` is a possibly-undefined string: the fallback is
taken when `a` is `undefined` or empty (both falsy). -/
def jsOrOpt (a : Option String) (b : String) : String :=
  match a with
  | none => b
  | some s => if s = "" then b else s

/-- The candidate competitor a CSV row is mapped to (the raw strings handed to
the insert path; `name` has no fallback and may be `undefined`). -/
structure CompetitorCandidate where
  name : Option String
  category : String
  priceRangeMin : String
  priceRangeMax : String
  marketShare : String
  trendStatus : String
deriving DecidableEq

/-- Candidate construction for `type === 'competitors'` in the upload handler.
Note that the `trendStatus` value is only a type-level cast followed by
`|| 'stable'`: any non-empty string passes through unchanged. -/
def buildCompetitorCandidate (row : List (String × String)) : CompetitorCandidate :=
  { name := rowLookup row "name",
    category := jsOrOpt (rowLookup row "industry") (jsOrOpt (rowLookup row "category") "Technology"),
    priceRangeMin := jsOrOpt (rowLookup row "price_range_min") "0.00",
    priceRangeMax := jsOrOpt (rowLookup row "price_range_max") "100.00",
    marketShare := jsOrOpt (rowLookup row "market_share") "0.00",
    trendStatus := jsOrOpt (rowLookup row "trend_status") "stable" }

/-- The candidate pricing observation for `type === 'pricing'`. -/
structure PricingCandidate where
  competitorId : ℕ
  price : ℚ
deriving DecidableEq

/-- `(parseFloat(rowData.price) || 0)`: `undefined`, unparsable input and `0`
itself all give `0`. -/
def jsPrice (o : Option String) : ℚ := (o.bind jsParseFloat).getD 0

/-! ## The database insert paths

The inserts go through the relational store; their failure conditions are the
column constraints of the schema (`shared/schema.ts`): `name` is `NOT NULL`,
the price-range and market-share columns are `numeric`, and `trend_status` is
an enum over growing/declining/stable. -/

/-- A Postgres `numeric` literal: optional sign, digits with an optional
fractional part, optional exponent, nothing else.  `none` models the
`invalid input syntax` error. -/
def pgParseNumeric (s : String) : Option ℚ :=
  let cs := trimChars s.data
  let sgn : ℚ := match cs with
    | '-' :: _ => -1
    | _ => 1
  let cs1 : List Char := match cs with
    | '-' :: r => r
    | '+' :: r => r
    | r => r
  let ip := cs1.takeWhile Char.isDigit
  let r1 := cs1.dropWhile Char.isDigit
  let fp : List Char := match r1 with
    | '.' :: r => r.takeWhile Char.isDigit
    | _ => []
  let r2 : List Char := match r1 with
    | '.' :: r => r.dropWhile Char.isDigit
    | r => r
  if ip.isEmpty && fp.isEmpty then none
  else
    let mant : ℚ := (digitsVal ip : ℚ) + (digitsVal fp : ℚ) / (10 : ℚ) ^ fp.length
    match r2 with
    | [] => some (sgn * mant)
    | e :: r3 =>
      if e = 'e' ∨ e = 'E' then
        let esgn : ℤ := match r3 with
          | '-' :: _ => -1
          | _ => 1
        let r4 : List Char := match r3 with
          | '-' :: r => r
          | '+' :: r => r
          | r => r
        let ed := r4.takeWhile Char.isDigit
        if ed.isEmpty ∨ ¬ (r4.dropWhile Char.isDigit).isEmpty then none
        else some (sgn * mant * (10 : ℚ) ^ (esgn * (digitsVal ed : ℤ)))
      else none

/-- Rounding to the column scale of 2 fractional digits. -/
def scale2 (q : ℚ) : ℚ := ((round (q * 100) : ℤ) : ℚ) / 100

/-- Membership in the `trend_status` enum. -/
def validTrend (s : String) : Bool :=
  s == "growing" || s == "declining" || s == "stable"

/-- Model of `storage.createCompetitor` backed by the schema's column
constraints: a missing name violates `NOT NULL`, non-numeric strings in the
`numeric` columns and values outside the `trend_status` enum are rejected by
the database; otherwise the row is appended with the next serial id. -/
def dbInsertCompetitor (st : Store) (cand : CompetitorCandidate) : Except String Store :=
  match cand.name with
  | none => .error "null value in column \"name\" violates not-null constraint"
  | some n =>
    match pgParseNumeric cand.priceRangeMin, pgParseNumeric cand.priceRangeMax,
        pgParseNumeric cand.marketShare with
    | some mn, some mx, some sh =>
      if validTrend cand.trendStatus then
        .ok { st with
              competitors := st.competitors ++
                [{ id := st.nextId, name := n, category := cand.category,
                   priceRangeMin := scale2 mn, priceRangeMax := scale2 mx,
                   marketShare := scale2 sh, trendStatus := cand.trendStatus }],
              nextId := st.nextId + 1 }
      else .error ("invalid input value for enum trend_status: \"" ++ cand.trendStatus ++ "\"")
    | _, _, _ => .error "invalid input syntax for type numeric"

/-- Model of `storage.createPricingData`: append the observation with the
`defaultNow()` timestamp. -/
def dbInsertPricing (st : Store) (cand : PricingCandidate) : Except String Store :=
  .ok { st with pricing := st.pricing ++
        [{ competitorId := cand.competitorId, price := cand.price, recordedAt := st.now }] }

/-- The storage operations the upload handler calls for each row; kept
abstract so that the error-collection logic can be settled for every possible
database behaviour, with `dbOps` below as the concrete schema-backed model. -/
structure StoreOps where
  insertCompetitor : Store → CompetitorCandidate → Except String Store
  insertPricing : Store → PricingCandidate → Except String Store

/-- The schema-backed storage operations. -/
def dbOps : StoreOps :=
  { insertCompetitor := dbInsertCompetitor, insertPricing := dbInsertPricing }

/-! ## The bulk-upload handler (POST /api/bulk-upload) -/

/-- The per-row error message wrapper of the handler's catch block. -/
def rowErrMsg (i : ℕ) (m : String) : String :=
  "Row " ++ toString (i + 2) ++ ": " ++ m

/-- The handler's message for an unresolved competitor name (an undefined
`competitor` field stringifies to `undefined` in the template literal). -/
def notFoundMsg (i : ℕ) (nameOpt : Option String) : String :=
  "Row " ++ toString (i + 2) ++ ": Competitor \"" ++ nameOpt.getD "undefined" ++ "\" not found"

/-- The case-insensitive name comparison
`c.name.toLowerCase() === rowData.competitor?.toLowerCase()`; comparison with
`undefined` is false. -/
def matchesName (nameOpt : Option String) (c : Competitor) : Bool :=
  match nameOpt with
  | some n => lowerStr c.name == lowerStr n
  | none => false

/-- One iteration of the upload loop: parse the line's values, build the row
mapping, and dispatch on the `type` field.  Returns the updated store, the
increment of `recordsProcessed`, and an optional collected error. -/
def processRow (ops : StoreOps) (ty : String) (headers : List String) (st : Store)
    (i : ℕ) (line : String) : Store × ℕ × Option String :=
  let values := (jsSplit ',' line).map canonField
  let row := buildRow headers values
  if ty = "competitors" then
    match ops.insertCompetitor st (buildCompetitorCandidate row) with
    | .ok st2 => (st2, 1, none)
    | .error m => (st, 0, some (rowErrMsg i m))
  else if ty = "pricing" then
    let nameOpt := rowLookup row "competitor"
    match st.competitors.find? (matchesName nameOpt) with
    | some c =>
      match ops.insertPricing st { competitorId := c.id, price := jsPrice (rowLookup row "price") } with
      | .ok st2 => (st2, 1, none)
      | .error m => (st, 0, some (rowErrMsg i m))
    | none => (st, 0, some (notFoundMsg i nameOpt))
  else (st, 0, none)

/-- The upload loop over all data rows, threading the store, the row index,
the `recordsProcessed` counter and the collected error list. -/
def processRows (ops : StoreOps) (ty : String) (headers : List String) :
    List String → Store → ℕ → ℕ → List String → Store × ℕ × List String
  | [], st, _, processed, errs => (st, processed, errs)
  | line :: rest, st, i, processed, errs =>
    let out := processRow ops ty headers st i line
    processRows ops ty headers rest out.1 (i + 1) (processed + out.2.1) (errs ++ out.2.2.toList)

/-- The JSON body returned on the success path of the upload handler. -/
structure UploadResult where
  recordsProcessed : ℕ
  totalRows : ℕ
  errors : List String
  success : Bool
deriving DecidableEq

/-- The observable outcome of one request to the upload handler, including
whether the staged temporary file was deleted. -/
structure BulkOutcome where
  status : ℕ
  body : Option UploadResult
  fileDeleted : Bool
  store : Store
deriving DecidableEq

/-- `fileContent.split('\n').filter(line => line.trim())`. -/
def nonBlankLines (fileContent : String) : List String :=
  (jsSplit '\n' fileContent).filter (fun l => !(trimChars l.data).isEmpty)

/-- Embedding of the `POST /api/bulk-upload` handler from the file-read
onward: fewer than two non-blank lines return a 400 response without touching
the staged file; otherwise line 0 becomes the header row, the remaining lines
are processed by the loop, the staged file is deleted, and the response
carries the counts and the first 10 collected errors. -/
def bulkUploadHandler (ops : StoreOps) (ty : String) (fileContent : String) (st : Store) :
    BulkOutcome :=
  let lines := nonBlankLines fileContent
  if lines.length < 2 then
    { status := 400, body := none, fileDeleted := false, store := st }
  else
    let headers := (jsSplit ',' (lines.headD "")).map canonField
    let dataRows := lines.drop 1
    let res := processRows ops ty headers dataRows st 0 0 []
    { status := 200,
      body := some { recordsProcessed := res.2.1, totalRows := dataRows.length,
                     errors := res.2.2.take 10, success := true },
      fileDeleted := true,
      store := res.1 }

/-- The row mapping built by the loop body from the headers and one line. -/
def rowOf (headers : List String) (line : String) : List (String × String) :=
  buildRow headers ((jsSplit ',' line).map canonField)

/-- The pricing candidate built by the loop body for a resolved competitor. -/
def pricingCandidateOf (headers : List String) (line : String) (c : Competitor) :
    PricingCandidate :=
  { competitorId := c.id, price := jsPrice (rowLookup (rowOf headers line) "price") }

/-- The loop call made by the handler on the 200 path, with its initial
index, counter and error accumulator. -/
def bulkLoop (ops : StoreOps) (ty fileContent : String) (st : Store) :
    Store × ℕ × List String :=
  processRows ops ty ((jsSplit ',' ((nonBlankLines fileContent).headD "")).map canonField)
    ((nonBlankLines fileContent).drop 1) st 0 0 []

/-! ## Statements modelled from the specification's wording -/

/-- Formalisation of the claim wording for field canonicalisation (not of the
code): strip at most one surrounding pair of quote characters after trimming,
preserving interior quotes. -/
def specStripSurround (s : String) : String :=
  match trimChars s.data with
  | '"' :: rest =>
    if rest ≠ [] ∧ rest.getLast? = some '"' then ⟨rest.dropLast⟩ else ⟨'"' :: rest⟩
  | t => ⟨t⟩

/-! ## Concrete fixtures used by witnesses and counterexamples -/

/-- An empty store. -/
def st0 : Store := { competitors := [], pricing := [], nextId := 1, now := 0 }

/-- A competitor named Acme with id 1. -/
def cAcme : Competitor :=
  { id := 1, name := "Acme", category := "Tech", priceRangeMin := 10,
    priceRangeMax := 20, marketShare := 5, trendStatus := "growing" }

/-- A store holding only Acme. -/
def stAcme : Store := { competitors := [cAcme], pricing := [], nextId := 2, now := 0 }

/-- A declining competitor. -/
def cDecl : Competitor :=
  { id := 2, name := "Beta", category := "Fin", priceRangeMin := 4,
    priceRangeMax := 8, marketShare := 3, trendStatus := "declining" }

/-- A three-data-row competitor CSV whose second data row has a malformed
market-share value. -/
def csv3 : String :=
  "Name,Category,Market Share\nAcme,Tech,10\nBeta,Fin,abc\nGamma,Health,5"

/-- A CSV consisting of a header row only. -/
def csvHeaderOnly : String := "Name,Category"

/-- A small market-data CSV. -/
def csvMarket : String := "Date,Metric\n2025-01-01,Share"

/-- A store with two competitors and one pricing observation for each. -/
def stDel : Store :=
  { competitors := [cAcme, cDecl],
    pricing := [{ competitorId := 1, price := 5, recordedAt := 0 },
                { competitorId := 2, price := 7, recordedAt := 0 }],
    nextId := 3, now := 0 }

/-! ## Helper lemmas -/

theorem round1_nonneg {q : ℚ} (h0 : 0 ≤ q) : 0 ≤ round1 q := by
  unfold round1
  have h : (0 : ℤ) ≤ round (q * 10) := by
    have := round_zero (α := ℚ)
    calc (0 : ℤ) = round (0 : ℚ) := by rw [round_zero]
      _ ≤ round (q * 10) := by
          rw [round_eq, round_eq]
          exact Int.floor_le_floor (by linarith)
  positivity

theorem round1_le_ten {q : ℚ} (h10 : q ≤ 10) : round1 q ≤ 10 := by
  unfold round1
  have h : round (q * 10) ≤ (100 : ℤ) := by
    calc round (q * 10) ≤ round ((100 : ℤ) : ℚ) := by
          rw [round_eq, round_eq]
          exact Int.floor_le_floor (by push_cast; linarith)
      _ = 100 := round_intCast 100
  rw [div_le_iff₀ (by norm_num)]
  calc ((round (q * 10) : ℤ) : ℚ) ≤ ((100 : ℤ) : ℚ) := by exact_mod_cast h
    _ = 10 * 10 := by norm_num

theorem rawTrend_bounds {g d t : ℕ} (hg : g ≤ t) (hd : d ≤ t) (ht : 0 < t) :
    0 ≤ ((g : ℚ) - (d : ℚ)) / (t : ℚ) * 5 + 5 ∧
      ((g : ℚ) - (d : ℚ)) / (t : ℚ) * 5 + 5 ≤ 10 := by
  have htQ : (0 : ℚ) < t := by exact_mod_cast ht
  have hgQ : (g : ℚ) ≤ t := by exact_mod_cast hg
  have hdQ : (d : ℚ) ≤ t := by exact_mod_cast hd
  have hg0 : (0 : ℚ) ≤ g := by positivity
  have hd0 : (0 : ℚ) ≤ d := by positivity
  constructor
  · have h1 : (-1 : ℚ) ≤ ((g : ℚ) - d) / t := by
      rw [le_div_iff₀ htQ]; linarith
    linarith
  · have h1 : ((g : ℚ) - d) / t ≤ 1 := by
      rw [div_le_iff₀ htQ]; linarith

    linarith

/-- The trend score as written in the source, exposed for rewriting. -/
theorem getDashboardMetrics_trendScore (cs : List Competitor) :
    (getDashboardMetrics cs).trendScore =
      max 0 (min 10 (round1 (if 0 < cs.length then
        (((cs.countP (fun c => c.trendStatus == "growing") : ℚ)
          - (cs.countP (fun c => c.trendStatus == "declining") : ℚ))
          / (cs.length : ℚ)) * 5 + 5 else 5))) := rfl

theorem round1_five : round1 5 = 5 := by
  unfold round1
  rw [show ((5 : ℚ) * 10) = ((50 : ℤ) : ℚ) by norm_num, round_intCast]
  norm_num

theorem round1_ten : round1 10 = 10 := by
  unfold round1
  rw [show ((10 : ℚ) * 10) = ((100 : ℤ) : ℚ) by norm_num, round_intCast]
  norm_num

theorem round1_zero : round1 0 = 0 := by
  unfold round1
  rw [show ((0 : ℚ) * 10) = ((0 : ℤ) : ℚ) by norm_num, round_intCast]
  norm_num

/-! ## C1 -/

/-- C1: for every competitor table, the dashboard trend score lies in
`[0, 10]`; it is exactly 5 for an empty table; otherwise it equals
`clamp(((g - d) / t) * 5 + 5, 0, 10)` rounded to one decimal, where `g`, `d`,
`t` are the growing, declining and total counts; with all competitors growing
it is 10 and with all declining it is 0. -/
theorem C1_trend_score (cs : List Competitor) :
    (0 ≤ (getDashboardMetrics cs).trendScore ∧ (getDashboardMetrics cs).trendScore ≤ 10) ∧
    (cs = [] → (getDashboardMetrics cs).trendScore = 5) ∧
    (cs ≠ [] → (getDashboardMetrics cs).trendScore
      = round1 (max 0 (min 10
          (((cs.countP (fun c => c.trendStatus == "growing") : ℚ)
            - (cs.countP (fun c => c.trendStatus == "declining") : ℚ))
            / (cs.length : ℚ) * 5 + 5)))) ∧
    ((∀ c ∈ cs, c.trendStatus = "growing") → cs ≠ [] →
      (getDashboardMetrics cs).trendScore = 10) ∧
    ((∀ c ∈ cs, c.trendStatus = "declining") → cs ≠ [] →
      (getDashboardMetrics cs).trendScore = 0) := by
  have hbounds : 0 ≤ (getDashboardMetrics cs).trendScore ∧
      (getDashboardMetrics cs).trendScore ≤ 10 := by
    rw [getDashboardMetrics_trendScore]
    exact ⟨le_max_left _ _, max_le (by norm_num) (min_le_left _ _)⟩
  refine ⟨hbounds, ?_, ?_, ?_, ?_⟩
  · intro h
    subst h
    rw [getDashboardMetrics_trendScore]
    simp [round1_five]
    norm_num
  · intro h
    have ht : 0 < cs.length := List.length_pos.mpr h
    have hraw := rawTrend_bounds
      (List.countP_le_length (fun c => c.trendStatus == "growing") (l := cs))
      (List.countP_le_length (fun c => c.trendStatus == "declining") (l := cs)) ht
    rw [getDashboardMetrics_trendScore, if_pos ht]
    rw [min_eq_right (round1_le_ten hraw.2), max_eq_right (round1_nonneg hraw.1),
      min_eq_right hraw.2, max_eq_right hraw.1]
  · intro hall h
    have ht : 0 < cs.length := List.length_pos.mpr h
    have htQ : (cs.length : ℚ) ≠ 0 := by
      exact_mod_cast Nat.pos_iff_ne_zero.mp ht
    have hg : cs.countP (fun c => c.trendStatus == "growing") = cs.length :=
      List.countP_eq_length.mpr (fun c hc => by simp [hall c hc])
    have hd : cs.countP (fun c => c.trendStatus == "declining") = 0 :=
      List.countP_eq_zero.mpr (fun c hc => by simp [hall c hc])
    rw [getDashboardMetrics_trendScore, if_pos ht, hg, hd]
    have hval : (((cs.length : ℕ) : ℚ) - ((0 : ℕ) : ℚ)) / (cs.length : ℚ) * 5 + 5 = 10 := by
      push_cast
      field_simp
      norm_num
    rw [hval, round1_ten]
    norm_num
  · intro hall h
    have ht : 0 < cs.length := List.length_pos.mpr h
    have htQ : (cs.length : ℚ) ≠ 0 := by
      exact_mod_cast Nat.pos_iff_ne_zero.mp ht
    have hg : cs.countP (fun c => c.trendStatus == "growing") = 0 :=
      List.countP_eq_zero.mpr (fun c hc => by simp [hall c hc])
    have hd : cs.countP (fun c => c.trendStatus == "declining") = cs.length :=
      List.countP_eq_length.mpr (fun c hc => by simp [hall c hc])
    rw [getDashboardMetrics_trendScore, if_pos ht, hg, hd]
    have hval : (((0 : ℕ) : ℚ) - ((cs.length : ℕ) : ℚ)) / (cs.length : ℚ) * 5 + 5 = 0 := by
      push_cast
      field_simp
    rw [hval, round1_zero]
    norm_num

/-- Witness for C1 at a one-element all-growing table. -/
theorem C1_trend_score_witness : (getDashboardMetrics [cAcme]).trendScore = 10 :=
  (C1_trend_score [cAcme]).2.2.2.1 (by decide) (by decide)

/-! ## C2 -/

/-- C2: the dashboard metrics report the competitor count, the mean of the
price-range midpoints (0 on an empty table), and the sum (not the average) of
the market shares (0 on an empty table). -/
theorem C2_dashboard_metrics (cs : List Competitor) :
    (getDashboardMetrics cs).totalCompetitors = cs.length ∧
    (getDashboardMetrics cs).marketShare = (cs.map (fun c => c.marketShare)).sum ∧
    (cs = [] → (getDashboardMetrics cs).avgPrice = 0 ∧
      (getDashboardMetrics cs).marketShare = 0) ∧
    (cs ≠ [] → (getDashboardMetrics cs).avgPrice
      = (cs.map (fun c => (c.priceRangeMin + c.priceRangeMax) / 2)).sum / (cs.length : ℚ)) := by
  refine ⟨rfl, ?_, ?_, ?_⟩
  · cases cs with
    | nil => simp [getDashboardMetrics, sqlSum, jsNumberOrZero]
    | cons c cs => simp [getDashboardMetrics, sqlSum, jsNumberOrZero]
  · intro h
    subst h
    exact ⟨rfl, rfl⟩
  · intro h
    cases cs with
    | nil => exact absurd rfl h
    | cons c cs =>
      simp only [getDashboardMetrics, sqlAvg, jsNumberOrZero, midPrice, List.isEmpty_cons,
        Bool.false_eq_true, if_false, Option.getD_some, List.length_map, List.length_cons]
      rfl

/-- Witness for C2 at the empty table. -/
theorem C2_dashboard_metrics_witness :
    (getDashboardMetrics []).avgPrice = 0 ∧ (getDashboardMetrics []).marketShare = 0 :=
  (C2_dashboard_metrics []).2.2.1 rfl

/-! ## C9 -/

/-- C9: deleting a competitor removes its pricing observations first and the
competitor afterwards, so no pricing row references the deleted id, and the
invariant that every pricing row references an existing competitor is
preserved. -/
theorem C9_delete_cascade (st : Store) (cid : ℕ) :
    (∀ p ∈ (deletePricingByCompetitor st cid).pricing, p.competitorId ≠ cid) ∧
    (deletePricingByCompetitor st cid).competitors = st.competitors ∧
    (∀ p ∈ (deleteCompetitor st cid).pricing, p.competitorId ≠ cid) ∧
    ((∀ p ∈ st.pricing, ∃ c ∈ st.competitors, c.id = p.competitorId) →
      ∀ p ∈ (deleteCompetitor st cid).pricing,
        ∃ c ∈ (deleteCompetitor st cid).competitors, c.id = p.competitorId) := by
  refine ⟨?_, rfl, ?_, ?_⟩
  · intro p hp
    have := (List.mem_filter.mp hp).2
    simpa using this
  · intro p hp
    have := (List.mem_filter.mp hp).2
    simpa using this
  · intro hinv p hp
    have hmem : p ∈ st.pricing := (List.mem_filter.mp hp).1
    have hne : p.competitorId ≠ cid := by
      have := (List.mem_filter.mp hp).2
      simpa using this
    obtain ⟨c, hc, hcid⟩ := hinv p hmem
    refine ⟨c, ?_, hcid⟩
    simp only [deleteCompetitor, deleteCompetitorRow, deletePricingByCompetitor,
      List.mem_filter]
    exact ⟨hc, by simpa using hcid ▸ hne⟩

/-- Witness for C9 at a store with two competitors and their pricing rows. -/
theorem C9_delete_cascade_witness :
    ∀ p ∈ (deleteCompetitor stDel 1).pricing,
      ∃ c ∈ (deleteCompetitor stDel 1).competitors, c.id = p.competitorId :=
  (C9_delete_cascade stDel 1).2.2.2 (by decide)

/-! ## C5 -/

theorem removeQuotes_eq_filter (cs : List Char) :
    removeQuotes cs = cs.filter (fun c => c ≠ '"') := by
  induction cs with
  | nil => rfl
  | cons c r ih =>
    by_cases h : c = '"'
    · simp [removeQuotes, h, ih]
    · simp [removeQuotes, h, ih]

theorem buildRow_getElem (hs : List String) :
    ∀ (vs : List String) (i : ℕ) (hdr : String), hs[i]? = some hdr →
      (buildRow hs vs)[i]? = some (headerKey hdr, vs.getD i "") := by
  induction hs with
  | nil =>
    intro vs i hdr h
    simp at h
  | cons h0 hs ih =>
    intro vs i hdr h
    cases i with
    | zero =>
      simp only [List.getElem?_cons_zero, Option.some.injEq] at h
      subst h
      cases vs with
      | nil => simp [buildRow, List.getD]
      | cons v vt => simp [buildRow, List.getD]
    | succ i =>
      simp only [List.getElem?_cons_succ] at h
      show (buildRow (h0 :: hs) vs)[i + 1]? = _
      have step : (buildRow (h0 :: hs) vs)[i + 1]? = (buildRow hs (vs.drop 1))[i]? := by
        simp [buildRow]
      rw [step, ih (vs.drop 1) i hdr h]
      cases vs with
      | nil => simp [List.getD]
      | cons v vt => simp [List.getD]

/-- C5 (corrected): the counterexample — the code removes every quote
character, so an interior quote is not preserved, contradicting the claimed
single-surrounding-pair stripping. -/
theorem C5_counterexample :
    canonField "a\"b" = "ab" ∧ specStripSurround "a\"b" = "a\"b" ∧
    canonField "a\"b" ≠ specStripSurround "a\"b" := by decide

/-- C5 (amended): each header field and data value is canonicalised by
trimming and then removing every quote character (interior quotes as well);
header keys are additionally lower-cased with whitespace runs replaced by
underscores; row values are zipped by header position and values missing at
the end of a line map to the empty string. -/
theorem C5_csv_canonicalisation :
    (∀ s : String, canonField s = ⟨(trimChars s.data).filter (fun c => c ≠ '"')⟩) ∧
    headerKey (canonField "\"Price Range Min\"") = "price_range_min" ∧
    (∀ (hs vs : List String) (i : ℕ) (hdr : String), hs[i]? = some hdr →
      (buildRow hs vs)[i]? = some (headerKey hdr, vs.getD i "")) ∧
    (∀ (hs vs : List String) (i : ℕ) (hdr : String), hs[i]? = some hdr → vs.length ≤ i →
      (buildRow hs vs)[i]? = some (headerKey hdr, "")) := by
  refine ⟨?_, by decide, buildRow_getElem, ?_⟩
  · intro s
    rw [canonField, removeQuotes_eq_filter]
  · intro hs vs i hdr h hlen
    rw [buildRow_getElem hs vs i hdr h, List.getD_eq_default _ _ hlen]

/-- Witness for C5 at a row with a missing trailing value. -/
theorem C5_csv_canonicalisation_witness :
    (buildRow ["Name", "Category"] ["Acme"])[1]? = some ("category", "") :=
  C5_csv_canonicalisation.2.2.2 ["Name", "Category"] ["Acme"] 1 "Category" (by decide) (by decide)

/-! ## C6 -/

theorem jsOrOpt_default {a : Option String} {b : String}
    (h : a = none ∨ a = some "") : jsOrOpt a b = b := by
  rcases h with h | h <;> simp [jsOrOpt, h]

theorem jsOrOpt_keep {a : Option String} {b s : String} (hs : s ≠ "")
    (h : a = some s) : jsOrOpt a b = s := by
  subst h
  simp [jsOrOpt, hs]

/-- C6 (corrected): the counterexample — a non-empty `trend_status` value
outside the enum is passed through unchanged instead of defaulting to
`stable`. -/
theorem C6_counterexample :
    (buildCompetitorCandidate [("name", "Acme"), ("trend_status", "surging")]).trendStatus
        = "surging" ∧
    ¬ ((buildCompetitorCandidate [("name", "Acme"), ("trend_status", "surging")]).trendStatus
          = "growing" ∨
       (buildCompetitorCandidate [("name", "Acme"), ("trend_status", "surging")]).trendStatus
          = "declining" ∨
       (buildCompetitorCandidate [("name", "Acme"), ("trend_status", "surging")]).trendStatus
          = "stable") := by decide

/-- C6 (amended): the candidate competitor takes `name` from the row, falls
back `industry` → `category` → `"Technology"` for the category, defaults the
price range to `"0.00"`/`"100.00"`, market share to `"0.00"`, and defaults
`trendStatus` to `"stable"` only when the row value is absent or empty — any
other string, valid enum member or not, is passed through unchanged. -/
theorem C6_candidate_fields (row : List (String × String)) :
    (buildCompetitorCandidate row).name = rowLookup row "name" ∧
    ((rowLookup row "industry" = none ∨ rowLookup row "industry" = some "") →
      (rowLookup row "category" = none ∨ rowLookup row "category" = some "") →
      (buildCompetitorCandidate row).category = "Technology") ∧
    (∀ s : String, s ≠ "" → rowLookup row "industry" = some s →
      (buildCompetitorCandidate row).category = s) ∧
    ((rowLookup row "industry" = none ∨ rowLookup row "industry" = some "") →
      ∀ s : String, s ≠ "" → rowLookup row "category" = some s →
      (buildCompetitorCandidate row).category = s) ∧
    ((rowLookup row "price_range_min" = none ∨ rowLookup row "price_range_min" = some "") →
      (buildCompetitorCandidate row).priceRangeMin = "0.00") ∧
    ((rowLookup row "price_range_max" = none ∨ rowLookup row "price_range_max" = some "") →
      (buildCompetitorCandidate row).priceRangeMax = "100.00") ∧
    ((rowLookup row "market_share" = none ∨ rowLookup row "market_share" = some "") →
      (buildCompetitorCandidate row).marketShare = "0.00") ∧
    ((rowLookup row "trend_status" = none ∨ rowLookup row "trend_status" = some "") →
      (buildCompetitorCandidate row).trendStatus = "stable") ∧
    (∀ s : String, s ≠ "" → rowLookup row "trend_status" = some s →
      (buildCompetitorCandidate row).trendStatus = s) := by
  refine ⟨rfl, ?_, ?_, ?_, ?_, ?_, ?_, ?_, ?_⟩
  · intro h1 h2
    show jsOrOpt _ (jsOrOpt _ _) = _
    rw [jsOrOpt_default h1, jsOrOpt_default h2]
  · intro s hs h
    show jsOrOpt _ (jsOrOpt _ _) = _
    rw [jsOrOpt_keep hs h]
  · intro h1 s hs h
    show jsOrOpt _ (jsOrOpt _ _) = _
    rw [jsOrOpt_default h1, jsOrOpt_keep hs h]
  · exact fun h => jsOrOpt_default h
  · exact fun h => jsOrOpt_default h
  · exact fun h => jsOrOpt_default h
  · exact fun h => jsOrOpt_default h
  · exact fun s hs h => jsOrOpt_keep hs h

/-- Witness for C6 at a row with no trend-status column. -/
theorem C6_candidate_fields_witness :
    (buildCompetitorCandidate [("name", "Acme")]).trendStatus = "stable" :=
  (C6_candidate_fields [("name", "Acme")]).2.2.2.2.2.2.2.1 (by decide)

/-! ## C10 -/

theorem processRow_other (ops : StoreOps) (ty : String) (headers : List String)
    (st : Store) (i : ℕ) (line : String)
    (h1 : ty ≠ "competitors") (h2 : ty ≠ "pricing") :
    processRow ops ty headers st i line = (st, 0, none) := by
  unfold processRow
  rw [if_neg h1, if_neg h2]

theorem processRows_other (ops : StoreOps) (ty : String) (headers : List String)
    (h1 : ty ≠ "competitors") (h2 : ty ≠ "pricing") :
    ∀ (rows : List String) (st : Store) (i processed : ℕ) (errs : List String),
      processRows ops ty headers rows st i processed errs = (st, processed, errs) := by
  intro rows
  induction rows with
  | nil =>
    intro st i processed errs
    rfl
  | cons line rest ih =>
    intro st i processed errs
    show processRows ops ty headers (line :: rest) st i processed errs = _
    rw [processRows, processRow_other ops ty headers st i line h1 h2]
    simpa using ih st (i + 1) processed errs

/-- C10: a bulk upload whose `type` is neither `competitors` nor `pricing`
silently skips every data row — no records are created, no errors are
collected, and the response reports zero processed records with success. -/
theorem C10_unknown_type (ops : StoreOps) (ty fileContent : String) (st : Store)
    (h1 : ty ≠ "competitors") (h2 : ty ≠ "pricing")
    (hn : ¬ (nonBlankLines fileContent).length < 2) :
    bulkUploadHandler ops ty fileContent st =
      { status := 200,
        body := some { recordsProcessed := 0,
                       totalRows := ((nonBlankLines fileContent).drop 1).length,
                       errors := [], success := true },
        fileDeleted := true, store := st } := by
  simp only [bulkUploadHandler]
  rw [if_neg hn]
  rw [processRows_other ops ty _ h1 h2]
  rfl

/-- Witness for C10 with the client's `market_data` upload type. -/
theorem C10_unknown_type_witness :
    bulkUploadHandler dbOps "market_data" csvMarket st0 =
      { status := 200,
        body := some { recordsProcessed := 0, totalRows := 1, errors := [], success := true },
        fileDeleted := true, store := st0 } := by
  have h := C10_unknown_type dbOps "market_data" csvMarket st0 (by decide) (by decide) (by decide)
  exact h.trans (by decide)

/-! ## C8 -/

/-- C8: evaluation of the handler at the failing input — a header-only upload
takes the early `lines.length < 2` return, which responds 400 without
deleting the staged file, while the normal path does delete it.  This
contradicts the stated cleanup-on-every-pipeline-failure behaviour. -/
theorem C8_empty_file_leak :
    (bulkUploadHandler dbOps "competitors" csvHeaderOnly st0).status = 400 ∧
    (bulkUploadHandler dbOps "competitors" csvHeaderOnly st0).body = none ∧
    (bulkUploadHandler dbOps "competitors" csvHeaderOnly st0).fileDeleted = false ∧
    (bulkUploadHandler dbOps "competitors" csv3 st0).fileDeleted = true := by decide

/-! ## C4 -/

/-- Unfolding of the loop body at the `competitors` record type (the string
comparisons in the dispatch reduce definitionally). -/
theorem processRow_competitors (ops : StoreOps) (headers : List String) (st : Store)
    (i : ℕ) (line : String) :
    processRow ops "competitors" headers st i line =
      (match ops.insertCompetitor st (buildCompetitorCandidate (rowOf headers line)) with
       | Except.ok st2 => (st2, 1, none)
       | Except.error m => (st, 0, some (rowErrMsg i m))) := rfl

/-- Unfolding of the loop body at the `pricing` record type. -/
theorem processRow_pricing (ops : StoreOps) (headers : List String) (st : Store)
    (i : ℕ) (line : String) :
    processRow ops "pricing" headers st i line =
      (match st.competitors.find?
          (matchesName (rowLookup (rowOf headers line) "competitor")) with
       | some c =>
         (match ops.insertPricing st (pricingCandidateOf headers line c) with
          | Except.ok st2 => (st2, 1, none)
          | Except.error m => (st, 0, some (rowErrMsg i m)))
       | none =>
         (st, 0,
           some (notFoundMsg i (rowLookup (rowOf headers line) "competitor")))) := rfl

/-- For the two dispatched record types, every row contributes exactly one of
a processed-record increment or a collected error. -/
theorem processRow_inc_err (ops : StoreOps) (ty : String) (headers : List String)
    (st : Store) (i : ℕ) (line : String)
    (hty : ty = "competitors" ∨ ty = "pricing") :
    (processRow ops ty headers st i line).2.1
      + (processRow ops ty headers st i line).2.2.toList.length = 1 := by
  rcases hty with h | h
  · subst h
    rw [processRow_competitors]
    split <;> rfl
  · subst h
    rw [processRow_pricing]
    split
    · split <;> rfl
    · rfl

/-- Accounting over the whole loop: processed records plus collected errors
add up to the number of data rows, for any initial accumulators. -/
theorem processRows_accounting (ops : StoreOps) (ty : String) (headers : List String)
    (hty : ty = "competitors" ∨ ty = "pricing") :
    ∀ (rows : List String) (st : Store) (i processed : ℕ) (errs : List String),
      (processRows ops ty headers rows st i processed errs).2.1
        + (processRows ops ty headers rows st i processed errs).2.2.length
        = processed + errs.length + rows.length := by
  intro rows
  induction rows with
  | nil =>
    intro st i processed errs
    simp [processRows]
  | cons line rest ih =>
    intro st i processed errs
    have h1 := processRow_inc_err ops ty headers st i line hty
    simp only [processRows]
    rw [ih]
    simp only [List.length_append, List.length_cons]
    omega

/-- C4: on the 200 path the response reports the number of data rows as
`totalRows`, at most the first 10 collected errors, and a processed count
such that every row is accounted for either as a success or as exactly one
collected error — a failing row never aborts the batch; concretely, the
three-row competitor CSV with one malformed row yields 2 processed records,
3 total rows and exactly one error string. -/
theorem C4_bulk_error_collection (ops : StoreOps) (ty fileContent : String) (st : Store)
    (hty : ty = "competitors" ∨ ty = "pricing")
    (hn : ¬ (nonBlankLines fileContent).length < 2) :
    (∃ r : UploadResult,
      (bulkUploadHandler ops ty fileContent st).body = some r ∧
      r.totalRows = ((nonBlankLines fileContent).drop 1).length ∧
      r.success = true ∧
      r.errors = (bulkLoop ops ty fileContent st).2.2.take 10 ∧
      r.errors.length ≤ 10 ∧
      r.recordsProcessed + (bulkLoop ops ty fileContent st).2.2.length = r.totalRows) ∧
    (bulkUploadHandler dbOps "competitors" csv3 st0).body =
      some { recordsProcessed := 2, totalRows := 3,
             errors := ["Row 3: invalid input syntax for type numeric"], success := true } := by
  have hbody : (bulkUploadHandler ops ty fileContent st).body
      = some { recordsProcessed := (bulkLoop ops ty fileContent st).2.1,
               totalRows := ((nonBlankLines fileContent).drop 1).length,
               errors := (bulkLoop ops ty fileContent st).2.2.take 10,
               success := true } := by
    simp only [bulkUploadHandler, bulkLoop]
    rw [if_neg hn]
  refine ⟨⟨_, hbody, rfl, rfl, rfl, ?_, ?_⟩, by decide⟩
  · rw [List.length_take]
    exact min_le_left _ _
  · have h := processRows_accounting ops ty
      ((jsSplit ',' ((nonBlankLines fileContent).headD "")).map canonField) hty
      ((nonBlankLines fileContent).drop 1) st 0 0 []
    simpa [bulkLoop] using h

/-- Witness for C4 at the three-row CSV with one malformed row. -/
theorem C4_bulk_error_collection_witness :
    (bulkUploadHandler dbOps "competitors" csv3 st0).body =
      some { recordsProcessed := 2, totalRows := 3,
             errors := ["Row 3: invalid input syntax for type numeric"], success := true } :=
  (C4_bulk_error_collection dbOps "competitors" csv3 st0 (Or.inl rfl) (by decide)).2

/-! ## C7 -/

/-- C7 (corrected): the counterexample — the `price` field `-5` is accepted
by `parseFloat` and is truthy, so a pricing observation with a negative price
is created, contradicting the claimed non-negative parse. -/
theorem C7_counterexample :
    (processRow dbOps "pricing" ["Competitor", "Price"] stAcme 0 "Acme,-5").1.pricing
        = [{ competitorId := 1, price := jsPrice (some "-5"), recordedAt := 0 }] ∧
    jsPrice (some "-5") = -5 ∧ ¬ (0 : ℚ) ≤ jsPrice (some "-5") := by
  have h5 : jsPrice (some "-5") = -5 := by
    have h : jsPrice (some "-5")
        = (-1 : ℚ) * (((5 : ℕ) : ℚ) + ((0 : ℕ) : ℚ) / (10 : ℚ) ^ (0 : ℕ)) * 1 := rfl
    rw [h]
    norm_num
  refine ⟨rfl, h5, ?_⟩
  rw [h5]
  norm_num

/-- C7 (amended): a pricing row resolves its competitor by case-insensitive
exact name match; with no match the store is unchanged, no observation is
created and the collected error names the competitor; with a match an
observation is created for that competitor whose price is the `parseFloat`
value of the `price` field with `0` for invalid or absent input (a negative
value is accepted as-is). -/
theorem C7_pricing_rows (st : Store) (i : ℕ) (headers : List String) (line : String) :
    (st.competitors.find? (matchesName (rowLookup (rowOf headers line) "competitor"))
        = none →
      processRow dbOps "pricing" headers st i line
        = (st, 0, some (notFoundMsg i (rowLookup (rowOf headers line) "competitor")))) ∧
    (∀ c : Competitor,
      st.competitors.find? (matchesName (rowLookup (rowOf headers line) "competitor"))
          = some c →
      processRow dbOps "pricing" headers st i line
        = ({ st with pricing := st.pricing ++
              [{ competitorId := c.id,
                 price := jsPrice (rowLookup (rowOf headers line) "price"),
                 recordedAt := st.now }] }, 1, none) ∧
      c ∈ st.competitors ∧
      matchesName (rowLookup (rowOf headers line) "competitor") c = true) ∧
    (∀ (n : String) (c : Competitor),
      matchesName (some n) c = (lowerStr c.name == lowerStr n)) ∧
    (∀ n : String, notFoundMsg i (some n)
        = "Row " ++ toString (i + 2) ++ ": Competitor \"" ++ n ++ "\" not found") ∧
    (∀ s : String, jsParseFloat s = none → jsPrice (some s) = 0) ∧
    jsPrice none = 0 := by
  refine ⟨?_, ?_, fun n c => rfl, fun n => rfl, ?_, rfl⟩
  · intro h
    rw [processRow_pricing, h]
  · intro c h
    refine ⟨?_, List.mem_of_find?_eq_some h, List.find?_some h⟩
    rw [processRow_pricing, h]
    rfl
  · intro s h
    simp [jsPrice, h]

/-- Witness for C7 at a pricing row naming an unknown competitor. -/
theorem C7_pricing_rows_witness :
    processRow dbOps "pricing" ["Competitor", "Price"] stAcme 0 "Nope,3"
      = (stAcme, 0, some "Row 2: Competitor \"Nope\" not found") := by
  have h := (C7_pricing_rows stAcme 0 ["Competitor", "Price"] "Nope,3").1 (by decide)
  exact h.trans (by rfl)

/-! ## C3 -/

/-- Sorting the deduplicated day list yields strictly increasing days. -/
theorem insertionSort_dedup_lt (l : List ℤ) :
    List.Pairwise (fun a b => a < b) (List.insertionSort (fun a b => a ≤ b) l.dedup) :=
  (List.sorted_insertionSort _ _).lt_of_le
    ((List.perm_insertionSort _ _).nodup_iff.mpr (List.nodup_dedup _))

/-- The trend series is strictly ascending by date (hence one entry per day). -/
theorem trends_sorted (rows : List PricingRow) (now days : ℤ) :
    List.Pairwise (fun a b => a.date < b.date) (getRecentPricingTrends rows now days) := by
  simp only [getRecentPricingTrends]
  refine List.pairwise_map.mpr ?_
  exact (insertionSort_dedup_lt _).imp (fun h => h)

/-- The dates of the trend series are the sorted deduplicated days of the
recent observations. -/
theorem trends_map_date (rows : List PricingRow) (now days : ℤ) :
    (getRecentPricingTrends rows now days).map TrendPoint.date
      = List.insertionSort (fun a b : ℤ => a ≤ b)
          ((rows.filter (fun r => now - days * 86400 ≤ r.recordedAt)).map
            (fun r => dateOf r.recordedAt)).dedup := by
  simp only [getRecentPricingTrends, List.map_map]
  exact List.map_id'' (fun x => rfl) _

/-- A day appears in the series exactly when some observation on that day is
on or after the cutoff. -/
theorem trends_dates (rows : List PricingRow) (now days dd : ℤ) :
    (∃ p ∈ getRecentPricingTrends rows now days, p.date = dd) ↔
      ∃ r ∈ rows, now - days * 86400 ≤ r.recordedAt ∧ dateOf r.recordedAt = dd := by
  rw [← List.mem_map (f := TrendPoint.date)]
  rw [trends_map_date]
  rw [(List.perm_insertionSort _ _).mem_iff, List.mem_dedup, List.mem_map]
  simp [List.mem_filter, and_assoc]

/-- Each series entry averages all prices recorded on its day. -/
theorem trends_avg (rows : List PricingRow) (now days : ℤ) :
    ∀ p ∈ getRecentPricingTrends rows now days,
      p.avgPrice = dayMean rows (now - days * 86400) p.date := by
  intro p hp
  simp only [getRecentPricingTrends, List.mem_map] at hp
  obtain ⟨dd, hdd, rfl⟩ := hp
  dsimp only
  unfold dayMean dayPrices
  have hfil : (rows.filter (fun r => decide (now - days * 86400 ≤ r.recordedAt))).filter
        (fun r => decide (dateOf r.recordedAt = dd))
      = rows.filter (fun r => decide (now - days * 86400 ≤ r.recordedAt ∧
          dateOf r.recordedAt = dd)) := by
    rw [List.filter_filter]
    refine List.filter_congr (fun r hr => ?_)
    by_cases h1 : now - days * 86400 ≤ r.recordedAt <;>
      by_cases h2 : dateOf r.recordedAt = dd <;> simp [h1, h2]
  rw [hfil]

/-- C3: the pricing-trend series is strictly ascending by date with exactly
one entry per day having at least one observation on or after the cutoff
`now - days` days (empty days are omitted), each entry averaging all prices
recorded that day across all competitors; at the route boundary a missing or
non-numeric `days` parameter resolves to 180. -/
theorem C3_pricing_trends (rows : List PricingRow) (now days : ℤ) (hdays : 0 < days) :
    List.Pairwise (fun a b => a.date < b.date) (getRecentPricingTrends rows now days) ∧
    (∀ dd : ℤ, (∃ p ∈ getRecentPricingTrends rows now days, p.date = dd) ↔
      ∃ r ∈ rows, now - days * 86400 ≤ r.recordedAt ∧ dateOf r.recordedAt = dd) ∧
    (∀ p ∈ getRecentPricingTrends rows now days,
      p.avgPrice = dayMean rows (now - days * 86400) p.date) ∧
    daysParam none = 180 ∧
    (∀ s : String, jsParseInt s = none → daysParam (some s) = 180) := by
  refine ⟨trends_sorted rows now days, fun dd => trends_dates rows now days dd,
    trends_avg rows now days, rfl, ?_⟩
  intro s h
  simp [daysParam, h]

/-- Witness for C3 at a one-observation table and a two-day window. -/
theorem C3_pricing_trends_witness :
    List.Pairwise (fun a b => a.date < b.date)
      (getRecentPricingTrends
        [{ competitorId := 1, price := 3, recordedAt := 200000 }] 300000 2) :=
  (C3_pricing_trends
    [{ competitorId := 1, price := 3, recordedAt := 200000 }] 300000 2 (by decide)).1

end CompetitivePulse
